import Mathlib

/-!
Shallow embedding of the Modbus protocol engine of the samsung-hvac-emulator
repository: the CRC16 engine, the register store, the RTU and TCP frame
codecs (`processRequest` of `ModbusRTU` and `ModbusTCP`), the storage
operations (initialize / loadSlaves / clearSlave / clearAllSlaves) and the
web-form register update route.  Buffers are modelled as `List Nat` whose
elements are bytes (values below 256); machine arithmetic is modelled with
explicit `% 256` / `% 65536` where the source relies on it.
-/

/-- Number of holding registers per slave (`this.registerCount = 500`). -/
def registerCount : Nat := 500

/-- One shift round of the CRC loop: shift right once, conditionally XOR-ing
the polynomial 0xA001 when the shifted-out bit is 1. -/
def crcUpdate (crc : Nat) : Nat :=
  if crc % 2 = 1 then (crc / 2) ^^^ 0xa001 else crc / 2

/-- Processing of one input byte: XOR into the register, then 8 shift rounds. -/
def crcByte (crc b : Nat) : Nat := crcUpdate^[8] (crc ^^^ b)

/-- CRC-16/MODBUS of a byte sequence (`calculateCRC`), initial value 0xFFFF. -/
def calculateCRC (buf : List Nat) : Nat := buf.foldl crcByte 0xffff

/-- Appends the CRC low byte first (`appendCRC`). -/
def appendCRC (buf : List Nat) : List Nat :=
  buf ++ [calculateCRC buf % 256, calculateCRC buf / 256 % 256]

/-- Verifies the trailing little-endian CRC (`verifyCRC`): frames shorter
than 3 bytes fail unconditionally. -/
def verifyCRC (buf : List Nat) : Bool :=
  if buf.length < 3 then false
  else (buf.getD (buf.length - 2) 0 + 256 * buf.getD (buf.length - 1) 0)
    == calculateCRC (buf.take (buf.length - 2))

theorem crcUpdate_lt {crc : Nat} (h : crc < 65536) : crcUpdate crc < 65536 := by
  unfold crcUpdate
  split
  · have h1 : crc / 2 < 2 ^ 16 := by omega
    have h2 : 0xa001 < 2 ^ 16 := by norm_num
    have := Nat.xor_lt_two_pow (n := 16) h1 h2
    omega
  · omega

theorem crcIter_lt (n : Nat) {crc : Nat} (h : crc < 65536) :
    crcUpdate^[n] crc < 65536 := by
  induction n generalizing crc with
  | zero => simpa using h
  | succ k ih =>
    rw [Function.iterate_succ_apply]
    exact ih (crcUpdate_lt h)

theorem crcByte_lt {crc b : Nat} (hc : crc < 65536) (hb : b < 65536) :
    crcByte crc b < 65536 := by
  unfold crcByte
  apply crcIter_lt
  have h1 : crc < 2 ^ 16 := by omega
  have h2 : b < 2 ^ 16 := by omega
  have := Nat.xor_lt_two_pow (n := 16) h1 h2
  omega

theorem calculateCRC_lt (buf : List Nat) (hb : ∀ x ∈ buf, x < 256) :
    calculateCRC buf < 65536 := by
  unfold calculateCRC
  have general : ∀ (l : List Nat) (crc : Nat), (∀ x ∈ l, x < 256) → crc < 65536 →
      l.foldl crcByte crc < 65536 := by
    intro l
    induction l with
    | nil => intro crc _ h; simpa using h
    | cons a t ih =>
      intro crc hmem hcrc
      simp only [List.foldl_cons]
      exact ih _ (fun x hx => hmem x (List.mem_cons_of_mem a hx))
        (crcByte_lt hcrc (by have := hmem a (List.mem_cons_self a t); omega))
  exact general buf 0xffff hb (by norm_num)

theorem getD_append_len (l l' : List Nat) (n : Nat) :
    (l ++ l').getD (l.length + n) 0 = l'.getD n 0 := by
  induction l with
  | nil => simp
  | cons a t ih =>
    simp only [List.cons_append, List.length_cons]
    have h : t.length + 1 + n = (t.length + n) + 1 := by omega
    rw [h, List.getD_cons_succ]
    exact ih

theorem take_append_len (l l' : List Nat) : (l ++ l').take l.length = l := by
  induction l with
  | nil => simp
  | cons a t ih =>
    simp only [List.cons_append, List.length_cons, List.take_succ_cons]
    rw [ih]

theorem verify_appendCRC (b : List Nat) (hne : b ≠ []) (hb : ∀ x ∈ b, x < 256) :
    verifyCRC (appendCRC b) = true := by
  have hcrc := calculateCRC_lt b hb
  have hlen : 1 ≤ b.length := List.length_pos.mpr hne
  unfold verifyCRC appendCRC
  have hlapp :
      (b ++ [calculateCRC b % 256, calculateCRC b / 256 % 256]).length = b.length + 2 := by
    simp
  rw [hlapp]
  rw [if_neg (by omega)]
  have h2 : b.length + 2 - 2 = b.length + 0 := by omega
  have h3 : b.length + 2 - 1 = b.length + 1 := by omega
  rw [h2, h3, getD_append_len, getD_append_len]
  have h4 : b.length + 0 = b.length := by omega
  rw [h4, take_append_len]
  simp only [List.getD_cons_zero, List.getD_cons_succ]
  have : calculateCRC b % 256 + 256 * (calculateCRC b / 256 % 256) = calculateCRC b := by
    omega
  simp [this]

/-- The register store: a finite map from slave id to its register array,
modelled as an association list (JS object keys are unique, so theorems that
need it assume `Nodup` on the key list). -/
abbrev Slaves := List (Nat × List Nat)

/-- Replaces the register array of the slave with the given id. -/
def updateSlave (s : Slaves) (id : Nat) (regs : List Nat) : Slaves :=
  s.map fun p => if p.1 = id then (p.1, regs) else p

/-- Big-endian 16-bit read at a byte offset (`readUInt16BE`); all such reads
in the source are guarded to be in bounds, so the default 0 is never hit
under the hypotheses of the theorems below. -/
def readU16BE (buf : List Nat) (off : Nat) : Nat :=
  256 * buf.getD off 0 + buf.getD (off + 1) 0

/-- Big-endian byte pair of a 16-bit value (`writeUInt16BE`). -/
def u16bytes (v : Nat) : List Nat := [v / 256 % 256, v % 256]

/-- Reading a single register for function 0x03: an address at or past 500
yields 0; an address below 500 reads the array (an out-of-array index or a
value not fitting 16 bits would make the response write throw, which the
surrounding catch turns into a null response, hence `none`). -/
def readOne (regs : List Nat) (idx : Nat) : Option Nat :=
  if idx < registerCount then
    match regs[idx]? with
    | none => none
    | some v => if v < 65536 then some v else none
  else some 0

/-- The value-collection loop of function 0x03, offsets 0 to q-1. -/
def readVals (regs : List Nat) (startAddr : Nat) : Nat → Option (List Nat)
  | 0 => some []
  | q + 1 =>
    match readVals regs startAddr q, readOne regs (startAddr + q) with
    | some vs, some v => some (vs ++ [v])
    | _, _ => none

/-- The register values a 0x03 read is specified to return: value i is
`registers[startAddr+i]` below address 500 and 0 from 500 on. -/
def expectedVals (regs : List Nat) (startAddr q : Nat) : List Nat :=
  (List.range q).map fun i => if startAddr + i < 500 then regs.getD (startAddr + i) 0 else 0

/-- Serializes register values as consecutive big-endian byte pairs. -/
def valsBytes (vals : List Nat) : List Nat := (vals.map u16bytes).flatten

/-- Builds the 0x03 response payload (byte count, then the values): fails
like the source when the single-byte byte-count write would throw (byte
count above 255) or a register value cannot be serialized. -/
def build03 (regs : List Nat) (startAddr quantity : Nat) : Option (List Nat) :=
  if 255 < quantity * 2 then none
  else
    match readVals regs startAddr quantity with
    | none => none
    | some vals => some (quantity * 2 :: valsBytes vals)

/-- The write loop of function 0x10: values are consecutive big-endian pairs
starting at byte offset `base`; each write is dropped when its target
address is at or past 500. -/
def writeMulti (regs : List Nat) (startAddr quantity : Nat) (buf : List Nat) (base : Nat) :
    List Nat :=
  (List.range quantity).foldl
    (fun r i =>
      if startAddr + i < registerCount then r.set (startAddr + i) (readU16BE buf (base + 2 * i))
      else r)
    regs

/-- RTU exception frame (`createExceptionResponse`): slave id, function code
with the high bit set, exception code, CRC appended. -/
def rtuException (slaveId functionCode exceptionCode : Nat) : List Nat :=
  appendCRC [slaveId, functionCode ||| 0x80, exceptionCode]

/-- The RTU frame codec (`ModbusRTU.processRequest`): returns the response
frame (or `none` when the source returns null) together with the updated
store. -/
def processRTU (slaves : Slaves) (req : List Nat) : Option (List Nat) × Slaves :=
  if req.length < 4 then (none, slaves)
  else if verifyCRC req then
    let slaveId := req.getD 0 0
    let functionCode := req.getD 1 0
    match slaves.lookup slaveId with
    | none => (none, slaves)
    | some regs =>
      if functionCode = 0x03 then
        if req.length ≠ 8 then (none, slaves)
        else
          match build03 regs (readU16BE req 2) (readU16BE req 4) with
          | none => (none, slaves)
          | some payload => (some (appendCRC (slaveId :: functionCode :: payload)), slaves)
      else if functionCode = 0x06 then
        if req.length ≠ 8 then (none, slaves)
        else
          let regAddr := readU16BE req 2
          let value := readU16BE req 4
          let slaves' :=
            if regAddr < registerCount then updateSlave slaves slaveId (regs.set regAddr value)
            else slaves
          (some (appendCRC (req.take 6)), slaves')
      else if functionCode = 0x10 then
        if req.length < 9 then (none, slaves)
        else
          let startAddr := readU16BE req 2
          let quantity := readU16BE req 4
          let byteCount := req.getD 6 0
          if byteCount ≠ quantity * 2 ∨ req.length ≠ 7 + byteCount + 2 then (none, slaves)
          else
            (some (appendCRC ([slaveId, functionCode] ++ u16bytes startAddr ++ u16bytes quantity)),
             updateSlave slaves slaveId (writeMulti regs startAddr quantity req 7))
      else (some (rtuException slaveId functionCode 0x01), slaves)
  else (none, slaves)

/-- TCP exception frame (`createExceptionResponse`): MBAP header with length
3, then unit id, function code with the high bit set, exception code. -/
def tcpException (tid pid unitId functionCode exceptionCode : Nat) : List Nat :=
  u16bytes tid ++ u16bytes pid ++ u16bytes 3 ++ [unitId, functionCode ||| 0x80, exceptionCode]

/-- Wraps a response PDU in the MBAP header: mirrored transaction and
protocol ids, length = PDU length + 1, unit id. -/
def tcpWrap (tid pid unitId : Nat) (pdu : List Nat) : List Nat :=
  u16bytes tid ++ u16bytes pid ++ u16bytes (pdu.length + 1) ++ [unitId] ++ pdu

/-- The TCP frame codec (`ModbusTCP.processRequest` of the MBAP variant):
returns the response (or `none` for null) and the updated store. -/
def processTCP (slaves : Slaves) (req : List Nat) : Option (List Nat) × Slaves :=
  if req.length < 8 then (none, slaves)
  else
    let tid := readU16BE req 0
    let pid := readU16BE req 2
    let len := readU16BE req 4
    let unitId := req.getD 6 0
    let functionCode := req.getD 7 0
    if pid ≠ 0 then (none, slaves)
    else if req.length < 6 + len then (none, slaves)
    else
      match slaves.lookup unitId with
      | none => (some (tcpException tid pid unitId functionCode 0x0b), slaves)
      | some regs =>
        let pdu := req.drop 7
        if functionCode = 0x03 then
          if pdu.length < 5 then (some (tcpException tid pid unitId functionCode 0x03), slaves)
          else
            let startAddr := readU16BE pdu 1
            let quantity := readU16BE pdu 3
            if quantity < 1 ∨ 125 < quantity then
              (some (tcpException tid pid unitId functionCode 0x03), slaves)
            else
              match build03 regs startAddr quantity with
              | none => (none, slaves)
              | some payload => (some (tcpWrap tid pid unitId (functionCode :: payload)), slaves)
        else if functionCode = 0x06 then
          if pdu.length < 5 then (some (tcpException tid pid unitId functionCode 0x03), slaves)
          else
            let regAddr := readU16BE pdu 1
            let value := readU16BE pdu 3
            if regAddr < registerCount then
              (some (tcpWrap tid pid unitId (pdu.take 5)),
               updateSlave slaves unitId (regs.set regAddr value))
            else (some (tcpException tid pid unitId functionCode 0x02), slaves)
        else if functionCode = 0x10 then
          if pdu.length < 6 then (some (tcpException tid pid unitId functionCode 0x03), slaves)
          else
            let startAddr := readU16BE pdu 1
            let quantity := readU16BE pdu 3
            let byteCount := pdu.getD 5 0
            if byteCount ≠ quantity * 2 ∨ pdu.length < 6 + byteCount then
              (some (tcpException tid pid unitId functionCode 0x03), slaves)
            else
              (some (tcpWrap tid pid unitId
                 (functionCode :: (u16bytes startAddr ++ u16bytes quantity))),
               updateSlave slaves unitId (writeMulti regs startAddr quantity pdu 6))
        else (some (tcpException tid pid unitId functionCode 0x01), slaves)

/-- The startup slave structure (`Storage.initialize`): one entry per
configured id, each with `registerCount` registers initialized to 0. -/
def initStore (ids : List Nat) (n : Nat) : Slaves :=
  ids.map fun id => (id, List.replicate n 0)

/-- The merge step of `Storage.loadSlaves`: every slave id present in the
saved file and in the current structure gets its register array replaced by
the saved one, with no validation of length or values. -/
def loadSlaves (store : Slaves) (saved : Slaves) : Slaves :=
  saved.foldl
    (fun st p => if (st.lookup p.1).isSome then updateSlave st p.1 p.2 else st)
    store

/-- Clearing one slave (`Storage.clearSlave`): fills its register array with
zeros in place, keeping the length. -/
def clearSlave (store : Slaves) (id : Nat) : Slaves :=
  match store.lookup id with
  | none => store
  | some regs => updateSlave store id (regs.map fun _ => 0)

/-- Clearing every slave (`Storage.clearAllSlaves`). -/
def clearAllSlaves (store : Slaves) : Slaves :=
  store.map fun p => (p.1, p.2.map fun _ => 0)

/-- JS `value & 0xFFFF` on a parsed (possibly negative) integer. -/
def and16 (v : Int) : Nat := (v.emod 65536).toNat

/-- Group clamping of the web routes: anything outside 1..7 becomes 1. -/
def clampGroup (g : Nat) : Nat := if g < 1 ∨ 7 < g then 1 else g

/-- First register address shown for a group: group 1 starts at 0, groups
2 to 7 at (group-1)*50. -/
def webGroupBase (group : Nat) : Nat := if group = 1 then 0 else (group - 1) * 50

/-- Number of registers in a group: 6 for group 1, 50 otherwise. -/
def webGroupSize (group : Nat) : Nat := if group = 1 then 6 else 50

/-- The register update loop of the web form handler: each submitted field
value (already parsed, `none` for missing or non-numeric fields) is masked
to 16 bits and assigned at its address within the group. -/
def webUpdateRegs (regs : List Nat) (group : Nat) (body : Nat → Option Int) : List Nat :=
  (List.range (webGroupSize group)).foldl
    (fun r i =>
      match body i with
      | none => r
      | some v => r.set (webGroupBase group + i) (and16 v))
    regs

/-- The POST /slave/:id form handler restricted to its register effect. -/
def webUpdate (store : Slaves) (id : Nat) (group : Nat) (body : Nat → Option Int) : Slaves :=
  match store.lookup id with
  | none => store
  | some regs => updateSlave store id (webUpdateRegs regs (clampGroup group) body)

/-- Appending newly arrived serial bytes to the accumulation buffer. -/
def rtuOnData (buf data : List Nat) : List Nat := buf ++ data

/-- Result of the silence-timer callback of the RTU transport. -/
structure RtuTimerResult where
  dispatched : Option (List Nat)
  outcome : Option (List Nat) × Slaves
  buffer : List Nat
  deriving Repr, DecidableEq

/-- The silence-timer callback: a buffer of at least 8 bytes is handed to
the frame codec, anything shorter is not; the buffer is emptied either way. -/
def rtuTimerFire (slaves : Slaves) (buf : List Nat) : RtuTimerResult :=
  if 8 ≤ buf.length then
    { dispatched := some buf, outcome := processRTU slaves buf, buffer := [] }
  else
    { dispatched := none, outcome := (none, slaves), buffer := [] }

/-- The register-array invariant of a slave: exactly 500 registers, each
fitting in 16 bits. -/
def slaveInv (regs : List Nat) : Prop :=
  regs.length = 500 ∧ ∀ v ∈ regs, v < 65536

/-- The store invariant: every configured slave satisfies `slaveInv`. -/
def storeInv (s : Slaves) : Prop := ∀ p ∈ s, slaveInv p.2

instance (regs : List Nat) : Decidable (slaveInv regs) := by
  unfold slaveInv
  infer_instance

instance (s : Slaves) : Decidable (storeInv s) := by
  unfold storeInv
  infer_instance

theorem getD_lt_256 (l : List Nat) (n : Nat) (h : ∀ x ∈ l, x < 256) : l.getD n 0 < 256 := by
  induction l generalizing n with
  | nil => simp [List.getD]
  | cons a t ih =>
    cases n with
    | zero => simpa using h a (List.mem_cons_self a t)
    | succ k =>
      rw [List.getD_cons_succ]
      exact ih k fun x hx => h x (List.mem_cons_of_mem a hx)

theorem readU16BE_lt (buf : List Nat) (off : Nat) (h : ∀ x ∈ buf, x < 256) :
    readU16BE buf off < 65536 := by
  unfold readU16BE
  have h1 := getD_lt_256 buf off h
  have h2 := getD_lt_256 buf (off + 1) h
  omega

theorem lookup_mem (s : Slaves) (id : Nat) (regs : List Nat)
    (h : s.lookup id = some regs) : (id, regs) ∈ s := by
  induction s with
  | nil => simp [List.lookup] at h
  | cons p t ih =>
    rw [List.lookup] at h
    by_cases hk : id = p.1
    · rw [beq_iff_eq.mpr hk] at h
      simp only [] at h
      injection h with h2
      subst h2
      cases p
      simp_all
    · rw [beq_eq_false_iff_ne.mpr hk] at h
      simp only [] at h
      exact List.mem_cons_of_mem p (ih h)

theorem storeInv_lookup (s : Slaves) (id : Nat) (regs : List Nat)
    (hs : storeInv s) (h : s.lookup id = some regs) : slaveInv regs :=
  hs (id, regs) (lookup_mem s id regs h)

theorem slaveInv_set (regs : List Nat) (i v : Nat) (hs : slaveInv regs) (hv : v < 65536) :
    slaveInv (regs.set i v) := by
  obtain ⟨hlen, hval⟩ := hs
  constructor
  · rw [List.length_set]
    exact hlen
  · intro w hw
    rcases List.mem_or_eq_of_mem_set hw with h | h
    · exact hval w h
    · omega

theorem updateSlave_inv (s : Slaves) (id : Nat) (regs : List Nat)
    (hs : storeInv s) (hr : slaveInv regs) : storeInv (updateSlave s id regs) := by
  intro p hp
  unfold updateSlave at hp
  rcases List.mem_map.mp hp with ⟨q, hq, hpq⟩
  by_cases h : q.1 = id
  · rw [if_pos h] at hpq
    rw [← hpq]
    exact hr
  · rw [if_neg h] at hpq
    rw [← hpq]
    exact hs q hq

theorem writeMulti_inv (regs : List Nat) (startAddr quantity : Nat) (buf : List Nat)
    (base : Nat) (hs : slaveInv regs) (hb : ∀ x ∈ buf, x < 256) :
    slaveInv (writeMulti regs startAddr quantity buf base) := by
  unfold writeMulti
  have general : ∀ (l : List Nat) (r : List Nat), slaveInv r →
      slaveInv (l.foldl
        (fun r i =>
          if startAddr + i < registerCount then r.set (startAddr + i) (readU16BE buf (base + 2 * i))
          else r) r) := by
    intro l
    induction l with
    | nil => intro r hr; simpa using hr
    | cons a t ih =>
      intro r hr
      simp only [List.foldl_cons]
      apply ih
      split
      · exact slaveInv_set _ _ _ hr (readU16BE_lt buf _ hb)
      · exact hr
  exact general _ regs hs

theorem writeMulti_oob (regs : List Nat) (startAddr quantity : Nat) (buf : List Nat)
    (base : Nat) (h : registerCount ≤ startAddr) :
    writeMulti regs startAddr quantity buf base = regs := by
  unfold writeMulti
  have general : ∀ (l : List Nat) (r : List Nat),
      l.foldl
        (fun r i =>
          if startAddr + i < registerCount then r.set (startAddr + i) (readU16BE buf (base + 2 * i))
          else r) r = r := by
    intro l
    induction l with
    | nil => intro r; rfl
    | cons a t ih =>
      intro r
      simp only [List.foldl_cons]
      rw [if_neg (by omega)]
      exact ih r
  exact general _ regs

theorem map_update_id (t : Slaves) (id : Nat) (regs : List Nat)
    (h : ∀ q ∈ t, q.1 ≠ id) :
    (t.map fun p => if p.1 = id then (p.1, regs) else p) = t := by
  induction t with
  | nil => rfl
  | cons a r ih =>
    rw [List.map_cons, if_neg (h a (List.mem_cons_self a r))]
    rw [ih fun q hq => h q (List.mem_cons_of_mem a hq)]

theorem updateSlave_self (s : Slaves) (id : Nat) (regs : List Nat)
    (hnd : (s.map Prod.fst).Nodup) (h : s.lookup id = some regs) :
    updateSlave s id regs = s := by
  induction s with
  | nil => rfl
  | cons p t ih =>
    rw [List.map_cons, List.nodup_cons] at hnd
    obtain ⟨hn, hnd'⟩ := hnd
    rw [List.lookup] at h
    by_cases hk : id = p.1
    · rw [beq_iff_eq.mpr hk] at h
      simp only [] at h
      injection h with h2
      subst h2
      unfold updateSlave
      rw [List.map_cons, if_pos hk.symm]
      have hhead : (p.1, p.2) = p := rfl
      rw [hhead]
      congr 1
      apply map_update_id
      intro q hq hq1
      exact hn (by rw [← hk, ← hq1]; exact List.mem_map_of_mem Prod.fst hq)
    · rw [beq_eq_false_iff_ne.mpr hk] at h
      simp only [] at h
      unfold updateSlave
      rw [List.map_cons, if_neg fun he => hk he.symm]
      have htail := ih hnd' h
      unfold updateSlave at htail
      rw [htail]

theorem readOne_eq (regs : List Nat) (idx : Nat) (hlen : regs.length = 500)
    (hval : ∀ v ∈ regs, v < 65536) :
    readOne regs idx = some (if idx < 500 then regs.getD idx 0 else 0) := by
  unfold readOne registerCount
  by_cases h : idx < 500
  · rw [if_pos h, if_pos h]
    have hidx : idx < regs.length := by omega
    rw [List.getElem?_eq_getElem hidx]
    have hv : regs[idx] < 65536 := hval _ (List.getElem_mem hidx)
    simp only []
    rw [if_pos hv, List.getD_eq_getElem regs 0 hidx]
  · rw [if_neg h, if_neg h]

theorem readVals_eq (regs : List Nat) (s : Nat) (hlen : regs.length = 500)
    (hval : ∀ v ∈ regs, v < 65536) (q : Nat) :
    readVals regs s q = some (expectedVals regs s q) := by
  induction q with
  | zero => simp [readVals, expectedVals]
  | succ k ih =>
    have hexp : expectedVals regs s (k + 1) =
        expectedVals regs s k ++ [if s + k < 500 then regs.getD (s + k) 0 else 0] := by
      unfold expectedVals
      rw [List.range_succ, List.map_append, List.map_singleton]
    rw [hexp]
    simp only [readVals]
    rw [ih, readOne_eq regs (s + k) hlen hval]

theorem build03_eq (regs : List Nat) (s q : Nat) (hinv : slaveInv regs)
    (hq : q * 2 ≤ 255) :
    build03 regs s q = some (q * 2 :: valsBytes (expectedVals regs s q)) := by
  obtain ⟨hlen, hval⟩ := hinv
  unfold build03
  rw [if_neg (by omega), readVals_eq regs s hlen hval q]

/-- Demo store used by the instantiating theorems: slave 1 with 500
registers, value 7 at address 0. -/
def demoRegs : List Nat := (List.replicate 500 0).set 0 7

/-- Demo store with the single configured slave 1. -/
def demoStore : Slaves := [(1, demoRegs)]

/-- C1: every 0x03 Read Holding Registers request addressed to a configured
slave (within the quantity bounds each transport lets through) succeeds with
exactly `quantity` big-endian 16-bit values, value i being
`registers[startAddr+i]` when `startAddr+i < 500` and 0 otherwise, so
out-of-range reads are zero padded and never rejected. -/
theorem c1_read_zero_padded :
    (∀ (slaves : Slaves) (req regs : List Nat),
      8 ≤ req.length →
      readU16BE req 2 = 0 →
      6 + readU16BE req 4 ≤ req.length →
      slaves.lookup (req.getD 6 0) = some regs →
      req.getD 7 0 = 3 →
      5 ≤ (req.drop 7).length →
      slaveInv regs →
      1 ≤ readU16BE (req.drop 7) 3 →
      readU16BE (req.drop 7) 3 ≤ 125 →
      processTCP slaves req =
        (some (tcpWrap (readU16BE req 0) 0 (req.getD 6 0)
            (3 :: readU16BE (req.drop 7) 3 * 2 ::
              valsBytes (expectedVals regs (readU16BE (req.drop 7) 1)
                (readU16BE (req.drop 7) 3)))),
         slaves)) ∧
    (∀ (slaves : Slaves) (req regs : List Nat),
      req.length = 8 →
      verifyCRC req = true →
      slaves.lookup (req.getD 0 0) = some regs →
      req.getD 1 0 = 3 →
      slaveInv regs →
      readU16BE req 4 ≤ 127 →
      processRTU slaves req =
        (some (appendCRC (req.getD 0 0 :: 3 :: readU16BE req 4 * 2 ::
            valsBytes (expectedVals regs (readU16BE req 2) (readU16BE req 4)))),
         slaves)) := by
  constructor
  · intro slaves req regs h8 hpid hlen hlook hfc hpdu hinv hq1 hq2
    have c1 : ¬ (req.length < 8) := by omega
    have c3 : ¬ (req.length < 6 + readU16BE req 4) := by omega
    have c4 : ¬ ((req.drop 7).length < 5) := by omega
    have c5 : ¬ (readU16BE (req.drop 7) 3 < 1 ∨ 125 < readU16BE (req.drop 7) 3) := by omega
    have hb := build03_eq regs (readU16BE (req.drop 7) 1) (readU16BE (req.drop 7) 3)
      hinv (by omega)
    simp only [processTCP, c1, c3, c4, c5, hpid, hfc, hlook, hb, if_false, if_true,
      ite_false, ite_true, ne_eq, not_true, not_false_iff, if_neg, reduceIte]
  · intro slaves req regs h8 hcrc hlook hfc hinv hq
    have c1 : ¬ (req.length < 4) := by omega
    have c2 : ¬ (req.length ≠ 8) := by omega
    have hb := build03_eq regs (readU16BE req 2) (readU16BE req 4) hinv (by omega)
    simp only [processRTU, c1, c2, hcrc, hfc, hlook, hb, if_false, if_true,
      ite_false, ite_true, reduceIte]

set_option maxRecDepth 10000 in
/-- Instantiation of the C1 theorem at concrete requests on the demo store:
a TCP read of 2 registers from address 0 and the matching RTU read. -/
theorem c1_read_zero_padded_witness :
    processTCP demoStore [0, 1, 0, 0, 0, 6, 1, 3, 0, 0, 0, 2] =
      (some (tcpWrap 1 0 1 (3 :: 4 :: valsBytes (expectedVals demoRegs 0 2))), demoStore) ∧
    processRTU demoStore (appendCRC [1, 3, 0, 0, 0, 2]) =
      (some (appendCRC (1 :: 3 :: 4 :: valsBytes (expectedVals demoRegs 0 2))), demoStore) :=
  ⟨c1_read_zero_padded.1 demoStore [0, 1, 0, 0, 0, 6, 1, 3, 0, 0, 0, 2] demoRegs
      (by decide) (by decide) (by decide) (by decide) (by decide) (by decide)
      (by decide) (by decide) (by decide),
   c1_read_zero_padded.2 demoStore (appendCRC [1, 3, 0, 0, 0, 2]) demoRegs
      (by decide) (by decide) (by decide) (by decide) (by decide) (by decide)⟩

/-- C3: a frame whose unit or slave id is not configured is answered on the
TCP path by an exception response with code 0x0B and function code
`fc ||| 0x80` that echoes the original transaction id, while the RTU path
drops the frame and produces no response at all. -/
theorem c3_unknown_unit_id :
    (∀ (slaves : Slaves) (req : List Nat),
      8 ≤ req.length →
      readU16BE req 2 = 0 →
      6 + readU16BE req 4 ≤ req.length →
      slaves.lookup (req.getD 6 0) = none →
      processTCP slaves req =
        (some (u16bytes (readU16BE req 0) ++ u16bytes 0 ++ u16bytes 3 ++
            [req.getD 6 0, req.getD 7 0 ||| 0x80, 0x0b]), slaves)) ∧
    (∀ (slaves : Slaves) (req : List Nat),
      4 ≤ req.length →
      verifyCRC req = true →
      slaves.lookup (req.getD 0 0) = none →
      processRTU slaves req = (none, slaves)) := by
  constructor
  · intro slaves req h8 hpid hlen hlook
    have c1 : ¬ (req.length < 8) := by omega
    have c3 : ¬ (req.length < 6 + readU16BE req 4) := by omega
    simp only [processTCP, tcpException, c1, c3, hpid, hlook, if_false, if_true,
      ite_false, ite_true, ne_eq, not_true, not_false_iff, reduceIte]
  · intro slaves req h4 hcrc hlook
    have c1 : ¬ (req.length < 4) := by omega
    simp only [processRTU, c1, hcrc, hlook, if_false, if_true, ite_false, ite_true,
      reduceIte]

set_option maxRecDepth 10000 in
/-- Instantiation of the C3 theorem at requests for the unconfigured unit
id 99 on the demo store. -/
theorem c3_unknown_unit_id_witness :
    processTCP demoStore [0, 5, 0, 0, 0, 6, 99, 3, 0, 0, 0, 1] =
      (some (u16bytes 5 ++ u16bytes 0 ++ u16bytes 3 ++ [99, 3 ||| 0x80, 0x0b]), demoStore) ∧
    processRTU demoStore (appendCRC [99, 3, 0, 0, 0, 1]) = (none, demoStore) :=
  ⟨c3_unknown_unit_id.1 demoStore [0, 5, 0, 0, 0, 6, 99, 3, 0, 0, 0, 1]
      (by decide) (by decide) (by decide) (by decide),
   c3_unknown_unit_id.2 demoStore (appendCRC [99, 3, 0, 0, 0, 1])
      (by decide) (by decide) (by decide)⟩

/-- C4: a 0x06 Write Single Register request for an address at or past 500
addressed to a configured slave is answered on the TCP path with exception
code 0x02 and writes nothing, while the RTU path also writes nothing but
echoes the address and value of the request as a normal success response. -/
theorem c4_write_single_oob :
    (∀ (slaves : Slaves) (req regs : List Nat),
      8 ≤ req.length →
      readU16BE req 2 = 0 →
      6 + readU16BE req 4 ≤ req.length →
      slaves.lookup (req.getD 6 0) = some regs →
      req.getD 7 0 = 6 →
      5 ≤ (req.drop 7).length →
      500 ≤ readU16BE (req.drop 7) 1 →
      processTCP slaves req =
        (some (u16bytes (readU16BE req 0) ++ u16bytes 0 ++ u16bytes 3 ++
            [req.getD 6 0, 6 ||| 0x80, 0x02]), slaves)) ∧
    (∀ (slaves : Slaves) (req regs : List Nat),
      req.length = 8 →
      verifyCRC req = true →
      slaves.lookup (req.getD 0 0) = some regs →
      req.getD 1 0 = 6 →
      500 ≤ readU16BE req 2 →
      processRTU slaves req = (some (appendCRC (req.take 6)), slaves)) := by
  constructor
  · intro slaves req regs h8 hpid hlen hlook hfc hpdu haddr
    have c1 : ¬ (req.length < 8) := by omega
    have c3 : ¬ (req.length < 6 + readU16BE req 4) := by omega
    have hne3 : ¬ (req.getD 7 0 = 3) := by omega
    have c4 : ¬ ((req.drop 7).length < 5) := by omega
    have c5 : ¬ (readU16BE (req.drop 7) 1 < registerCount) := by
      unfold registerCount
      omega
    simp only [processTCP, tcpException, c1, c3, hne3, hfc, hlook, c4, c5, hpid,
      if_false, if_true, ite_false, ite_true, ne_eq, not_true, not_false_iff, reduceIte]
    rw [if_neg (by decide)]
  · intro slaves req regs h8 hcrc hlook hfc haddr
    have c1 : ¬ (req.length < 4) := by omega
    have hne3 : ¬ (req.getD 1 0 = 3) := by omega
    have c2 : ¬ (req.length ≠ 8) := by omega
    have c5 : ¬ (readU16BE req 2 < registerCount) := by
      unfold registerCount
      omega
    simp only [processRTU, c1, hcrc, hlook, hne3, hfc, c2, c5, if_false, if_true,
      ite_false, ite_true, reduceIte]
    rw [if_neg (by decide)]

set_option maxRecDepth 10000 in
/-- Instantiation of the C4 theorem: writing value 42 to address 500 on the
demo store over TCP and over RTU. -/
theorem c4_write_single_oob_witness :
    processTCP demoStore [0, 2, 0, 0, 0, 6, 1, 6, 1, 244, 0, 42] =
      (some (u16bytes 2 ++ u16bytes 0 ++ u16bytes 3 ++ [1, 6 ||| 0x80, 0x02]), demoStore) ∧
    processRTU demoStore (appendCRC [1, 6, 1, 244, 0, 42]) =
      (some (appendCRC ((appendCRC [1, 6, 1, 244, 0, 42]).take 6)), demoStore) :=
  ⟨c4_write_single_oob.1 demoStore [0, 2, 0, 0, 0, 6, 1, 6, 1, 244, 0, 42] demoRegs
      (by decide) (by decide) (by decide) (by decide) (by decide) (by decide) (by decide),
   c4_write_single_oob.2 demoStore (appendCRC [1, 6, 1, 244, 0, 42]) demoRegs
      (by decide) (by decide) (by decide) (by decide) (by decide)⟩

/-- C5: on the TCP path a 0x03 quantity outside 1..125 is answered with
exception code 0x03, while the RTU path applies no such bound: any quantity
whose byte count fits the one-byte field (so any quantity up to 127,
including 0 and 126..127) still produces a success response. -/
theorem c5_quantity_bound_tcp_only :
    (∀ (slaves : Slaves) (req regs : List Nat),
      8 ≤ req.length →
      readU16BE req 2 = 0 →
      6 + readU16BE req 4 ≤ req.length →
      slaves.lookup (req.getD 6 0) = some regs →
      req.getD 7 0 = 3 →
      5 ≤ (req.drop 7).length →
      readU16BE (req.drop 7) 3 < 1 ∨ 125 < readU16BE (req.drop 7) 3 →
      processTCP slaves req =
        (some (u16bytes (readU16BE req 0) ++ u16bytes 0 ++ u16bytes 3 ++
            [req.getD 6 0, 3 ||| 0x80, 0x03]), slaves)) ∧
    (∀ (slaves : Slaves) (req regs : List Nat),
      req.length = 8 →
      verifyCRC req = true →
      slaves.lookup (req.getD 0 0) = some regs →
      req.getD 1 0 = 3 →
      slaveInv regs →
      readU16BE req 4 ≤ 127 →
      ((processRTU slaves req).1).isSome = true) := by
  constructor
  · intro slaves req regs h8 hpid hlen hlook hfc hpdu hq
    have c1 : ¬ (req.length < 8) := by omega
    have c3 : ¬ (req.length < 6 + readU16BE req 4) := by omega
    have c4 : ¬ ((req.drop 7).length < 5) := by omega
    have hcond : (readU16BE (req.drop 7) 3 < 1 ∨ 125 < readU16BE (req.drop 7) 3) = True :=
      eq_true hq
    simp only [processTCP, tcpException, c1, c3, c4, hcond, hpid, hfc, hlook,
      if_false, if_true, ite_false, ite_true, ne_eq, not_true, not_false_iff, reduceIte]
  · intro slaves req regs h8 hcrc hlook hfc hinv hq
    have c1 : ¬ (req.length < 4) := by omega
    have c2 : ¬ (req.length ≠ 8) := by omega
    have hb := build03_eq regs (readU16BE req 2) (readU16BE req 4) hinv (by omega)
    simp only [processRTU, c1, c2, hcrc, hfc, hlook, hb, if_false, if_true,
      ite_false, ite_true, reduceIte, Option.isSome_some]

set_option maxRecDepth 10000 in
/-- Instantiation of the C5 theorem at quantity 126: rejected with exception
0x03 over TCP, still answered over RTU. -/
theorem c5_quantity_bound_tcp_only_witness :
    processTCP demoStore [0, 0, 0, 0, 0, 6, 1, 3, 0, 0, 0, 126] =
      (some (u16bytes 0 ++ u16bytes 0 ++ u16bytes 3 ++ [1, 3 ||| 0x80, 0x03]), demoStore) ∧
    ((processRTU demoStore (appendCRC [1, 3, 0, 0, 0, 126])).1).isSome = true :=
  ⟨c5_quantity_bound_tcp_only.1 demoStore [0, 0, 0, 0, 0, 6, 1, 3, 0, 0, 0, 126] demoRegs
      (by decide) (by decide) (by decide) (by decide) (by decide) (by decide) (by decide),
   c5_quantity_bound_tcp_only.2 demoStore (appendCRC [1, 3, 0, 0, 0, 126]) demoRegs
      (by decide) (by decide) (by decide) (by decide) (by decide) (by decide)⟩

set_option maxRecDepth 10000 in
/-- Counterexample to C6 as stated: a 0x10 TCP frame with one extra trailing
byte does not match the declared layout exactly, yet it is accepted and
answered with a normal success response (and the write is applied), not with
exception 0x03: the TCP path only rejects frames that are too short. -/
theorem c6_counterexample_overlong_accepted :
    processTCP demoStore [0, 0, 0, 0, 0, 10, 1, 16, 0, 0, 0, 1, 2, 0, 9, 238] =
      (some [0, 0, 0, 0, 0, 6, 1, 16, 0, 0, 0, 1], [(1, demoRegs.set 0 9)]) ∧
    (processTCP demoStore [0, 0, 0, 0, 0, 10, 1, 16, 0, 0, 0, 1, 2, 0, 9, 238]).1 ≠
      some (u16bytes 0 ++ u16bytes 0 ++ u16bytes 3 ++ [1, 16 ||| 0x80, 0x03]) := by
  decide

/-- C6 amended: a 0x10 request whose declared byte count differs from
quantity*2 is rejected; the frame-length check differs per transport: TCP
rejects only a PDU shorter than 6+byteCount (longer frames are accepted)
and answers with exception 0x03, while RTU requires the exact total length
7+byteCount+2 and silently drops mismatches, so exception 0x03 is produced
on the TCP path only. -/
theorem c6_write_multiple_validation :
    (∀ (slaves : Slaves) (req regs : List Nat),
      8 ≤ req.length →
      readU16BE req 2 = 0 →
      6 + readU16BE req 4 ≤ req.length →
      slaves.lookup (req.getD 6 0) = some regs →
      req.getD 7 0 = 16 →
      6 ≤ (req.drop 7).length →
      ((req.drop 7).getD 5 0 ≠ readU16BE (req.drop 7) 3 * 2 ∨
        (req.drop 7).length < 6 + (req.drop 7).getD 5 0) →
      processTCP slaves req =
        (some (u16bytes (readU16BE req 0) ++ u16bytes 0 ++ u16bytes 3 ++
            [req.getD 6 0, 16 ||| 0x80, 0x03]), slaves)) ∧
    (∀ (slaves : Slaves) (req regs : List Nat),
      9 ≤ req.length →
      verifyCRC req = true →
      slaves.lookup (req.getD 0 0) = some regs →
      req.getD 1 0 = 16 →
      (req.getD 6 0 ≠ readU16BE req 4 * 2 ∨ req.length ≠ 7 + req.getD 6 0 + 2) →
      processRTU slaves req = (none, slaves)) := by
  have e3 : ((16 : Nat) = 3) = False := by decide
  have e6 : ((16 : Nat) = 6) = False := by decide
  constructor
  · intro slaves req regs h8 hpid hlen hlook hfc hpdu hmis
    have c1 : ¬ (req.length < 8) := by omega
    have c3 : ¬ (req.length < 6 + readU16BE req 4) := by omega
    have c4 : ¬ ((req.drop 7).length < 6) := by omega
    have hcond : ((req.drop 7).getD 5 0 ≠ readU16BE (req.drop 7) 3 * 2 ∨
        (req.drop 7).length < 6 + (req.drop 7).getD 5 0) = True := eq_true hmis
    simp only [processTCP, tcpException, c1, c3, c4, hcond, hpid, hfc, hlook, e3, e6,
      if_false, if_true, ite_false, ite_true, ne_eq, not_true, not_false_iff, reduceIte]
  · intro slaves req regs h9 hcrc hlook hfc hmis
    have c1 : ¬ (req.length < 4) := by omega
    have c2 : ¬ (req.length < 9) := by omega
    have hcond : (req.getD 6 0 ≠ readU16BE req 4 * 2 ∨ req.length ≠ 7 + req.getD 6 0 + 2)
        = True := eq_true hmis
    simp only [processRTU, c1, c2, hcrc, hfc, hlook, hcond, e3, e6, if_false, if_true,
      ite_false, ite_true, ne_eq, reduceIte]

set_option maxRecDepth 10000 in
/-- Instantiation of the amended C6 theorem at a declared byte count of 3
for quantity 1: exception 0x03 over TCP, silent drop over RTU. -/
theorem c6_write_multiple_validation_witness :
    processTCP demoStore [0, 0, 0, 0, 0, 9, 1, 16, 0, 0, 0, 1, 3, 0, 9] =
      (some (u16bytes 0 ++ u16bytes 0 ++ u16bytes 3 ++ [1, 16 ||| 0x80, 0x03]), demoStore) ∧
    processRTU demoStore (appendCRC [1, 16, 0, 0, 0, 1, 3, 0, 9]) = (none, demoStore) :=
  ⟨c6_write_multiple_validation.1 demoStore [0, 0, 0, 0, 0, 9, 1, 16, 0, 0, 0, 1, 3, 0, 9]
      demoRegs (by decide) (by decide) (by decide) (by decide) (by decide) (by decide)
      (by decide),
   c6_write_multiple_validation.2 demoStore (appendCRC [1, 16, 0, 0, 0, 1, 3, 0, 9]) demoRegs
      (by decide) (by decide) (by decide) (by decide) (by decide)⟩

/-- C7: a write targeting an address at or past 500 is silently dropped: the
RTU 0x06 path leaves every register of every slave unchanged while still
answering with the echo response, and the TCP 0x10 path with an out-of-range
start address leaves the store unchanged as well; no error is raised by the
store. -/
theorem c7_oob_write_silently_dropped :
    (∀ (slaves : Slaves) (req regs : List Nat),
      req.length = 8 →
      verifyCRC req = true →
      slaves.lookup (req.getD 0 0) = some regs →
      req.getD 1 0 = 6 →
      500 ≤ readU16BE req 2 →
      (processRTU slaves req).2 = slaves ∧
        (processRTU slaves req).1 = some (appendCRC (req.take 6))) ∧
    (∀ (slaves : Slaves) (req regs : List Nat),
      (slaves.map Prod.fst).Nodup →
      8 ≤ req.length →
      readU16BE req 2 = 0 →
      6 + readU16BE req 4 ≤ req.length →
      slaves.lookup (req.getD 6 0) = some regs →
      req.getD 7 0 = 16 →
      6 ≤ (req.drop 7).length →
      (req.drop 7).getD 5 0 = readU16BE (req.drop 7) 3 * 2 →
      6 + (req.drop 7).getD 5 0 ≤ (req.drop 7).length →
      500 ≤ readU16BE (req.drop 7) 1 →
      (processTCP slaves req).2 = slaves) := by
  constructor
  · intro slaves req regs h8 hcrc hlook hfc haddr
    have c1 : ¬ (req.length < 4) := by omega
    have hne3 : ¬ (req.getD 1 0 = 3) := by omega
    have c2 : ¬ (req.length ≠ 8) := by omega
    have c5 : ¬ (readU16BE req 2 < registerCount) := by
      unfold registerCount
      omega
    simp only [processRTU, c1, hcrc, hlook, hne3, hfc, c2, c5, if_false, if_true,
      ite_false, ite_true, reduceIte]
    rw [if_neg (by decide)]
    exact ⟨rfl, rfl⟩
  · intro slaves req regs hnd h8 hpid hlen hlook hfc hpdu hbc hlen2 haddr
    have e3 : ((16 : Nat) = 3) = False := by decide
    have e6 : ((16 : Nat) = 6) = False := by decide
    have c1 : ¬ (req.length < 8) := by omega
    have c3 : ¬ (req.length < 6 + readU16BE req 4) := by omega
    have c4 : ¬ ((req.drop 7).length < 6) := by omega
    have hcond : ¬ ((req.drop 7).getD 5 0 ≠ readU16BE (req.drop 7) 3 * 2 ∨
        (req.drop 7).length < 6 + (req.drop 7).getD 5 0) := by omega
    simp only [processTCP, c1, c3, c4, hcond, hpid, hfc, hlook, e3, e6, if_false,
      if_true, ite_false, ite_true, ne_eq, not_true, not_false_iff, reduceIte]
    rw [writeMulti_oob _ _ _ _ _ (by unfold registerCount; omega)]
    exact updateSlave_self slaves _ regs hnd hlook

set_option maxRecDepth 10000 in
/-- Instantiation of the C7 theorem: a single write to address 500 over RTU
and a multi-register write starting at address 500 over TCP, both on the
demo store. -/
theorem c7_oob_write_silently_dropped_witness :
    ((processRTU demoStore (appendCRC [1, 6, 1, 244, 0, 99])).2 = demoStore ∧
      (processRTU demoStore (appendCRC [1, 6, 1, 244, 0, 99])).1 =
        some (appendCRC ((appendCRC [1, 6, 1, 244, 0, 99]).take 6))) ∧
    (processTCP demoStore [0, 0, 0, 0, 0, 9, 1, 16, 1, 244, 0, 1, 2, 0, 9]).2 = demoStore :=
  ⟨c7_oob_write_silently_dropped.1 demoStore (appendCRC [1, 6, 1, 244, 0, 99]) demoRegs
      (by decide) (by decide) (by decide) (by decide) (by decide),
   c7_oob_write_silently_dropped.2 demoStore [0, 0, 0, 0, 0, 9, 1, 16, 1, 244, 0, 1, 2, 0, 9]
      demoRegs (by decide) (by decide) (by decide) (by decide) (by decide) (by decide)
      (by decide) (by decide) (by decide) (by decide)⟩

/-- Counterexample to C2 as stated: for the empty byte sequence the appended
frame is only the two CRC bytes, shorter than the 3-byte minimum, so
verification fails. -/
theorem c2_counterexample_empty : verifyCRC (appendCRC []) = false := by decide

/-- C2 amended: for every nonempty byte sequence, appending the CRC-16/MODBUS
(initial 0xFFFF, polynomial 0xA001, low byte first) yields a frame that the
little-endian CRC verification accepts. -/
theorem c2_crc_round_trip (b : List Nat) (hne : b ≠ []) (hb : ∀ x ∈ b, x < 256) :
    verifyCRC (appendCRC b) = true :=
  verify_appendCRC b hne hb

/-- Instantiation of the C2 round trip at the byte sequence [1, 2, 3]. -/
theorem c2_crc_round_trip_witness : verifyCRC (appendCRC [1, 2, 3]) = true :=
  c2_crc_round_trip [1, 2, 3] (by decide) (by decide)

/-- C9: when the RTU silence timer fires, the accumulated buffer is handed
to the frame codec exactly when it is at least 8 bytes long, and the buffer
is reset to empty after every firing regardless of the outcome. -/
theorem c9_rtu_framer_reset :
    ∀ (slaves : Slaves) (buf : List Nat),
      (rtuTimerFire slaves buf).dispatched = (if 8 ≤ buf.length then some buf else none) ∧
      (rtuTimerFire slaves buf).outcome =
        (if 8 ≤ buf.length then processRTU slaves buf else (none, slaves)) ∧
      (rtuTimerFire slaves buf).buffer = [] := by
  intro slaves buf
  unfold rtuTimerFire
  split
  · exact ⟨rfl, rfl, rfl⟩
  · exact ⟨rfl, rfl, rfl⟩

/-- C10: on the RTU path a CRC-valid 0x03 request for more than 127
registers produces no response at all: the byte count would exceed the
one-byte field, the write throws, and the catch returns null. -/
theorem c10_rtu_large_read_no_response :
    ∀ (slaves : Slaves) (req regs : List Nat),
      req.length = 8 →
      verifyCRC req = true →
      slaves.lookup (req.getD 0 0) = some regs →
      req.getD 1 0 = 3 →
      127 < readU16BE req 4 →
      processRTU slaves req = (none, slaves) := by
  intro slaves req regs h8 hcrc hlook hfc hq
  have c1 : ¬ (req.length < 4) := by omega
  have c2 : ¬ (req.length ≠ 8) := by omega
  have hb : build03 regs (readU16BE req 2) (readU16BE req 4) = none := by
    unfold build03
    rw [if_pos (by omega)]
  simp only [processRTU, c1, c2, hcrc, hfc, hlook, hb, if_false, if_true, ite_false,
    ite_true, reduceIte]

theorem and16_lt (v : Int) : and16 v < 65536 := by
  unfold and16
  have h1 : 0 ≤ v.emod 65536 := Int.emod_nonneg v (by norm_num)
  have h2 : v.emod 65536 < 65536 := Int.emod_lt_of_pos v (by norm_num)
  omega

theorem initStore_inv (ids : List Nat) : storeInv (initStore ids 500) := by
  intro p hp
  unfold initStore at hp
  rcases List.mem_map.mp hp with ⟨id, _, hpq⟩
  rw [← hpq]
  constructor
  · exact List.length_replicate 500 0
  · intro v hv
    rw [List.eq_of_mem_replicate hv]
    norm_num

theorem webUpdateRegs_inv (regs : List Nat) (group : Nat) (body : Nat → Option Int)
    (hs : slaveInv regs) : slaveInv (webUpdateRegs regs group body) := by
  unfold webUpdateRegs
  have general : ∀ (l : List Nat) (r : List Nat), slaveInv r →
      slaveInv (l.foldl
        (fun r i =>
          match body i with
          | none => r
          | some v => r.set (webGroupBase group + i) (and16 v)) r) := by
    intro l
    induction l with
    | nil => intro r hr; simpa using hr
    | cons a t ih =>
      intro r hr
      simp only [List.foldl_cons]
      apply ih
      cases body a with
      | none => exact hr
      | some v => exact slaveInv_set _ _ _ hr (and16_lt v)
  exact general _ regs hs

theorem webUpdate_inv (s : Slaves) (id group : Nat) (body : Nat → Option Int)
    (hs : storeInv s) : storeInv (webUpdate s id group body) := by
  unfold webUpdate
  split
  · exact hs
  · rename_i regs heq
    exact updateSlave_inv _ _ _ hs (webUpdateRegs_inv _ _ _ (storeInv_lookup s id regs hs heq))

theorem clearSlave_inv (s : Slaves) (id : Nat) (hs : storeInv s) :
    storeInv (clearSlave s id) := by
  unfold clearSlave
  split
  · exact hs
  · rename_i regs heq
    apply updateSlave_inv _ _ _ hs
    obtain ⟨hlen, _⟩ := storeInv_lookup s id regs hs heq
    constructor
    · rw [List.length_map]
      exact hlen
    · intro v hv
      rcases List.mem_map.mp hv with ⟨w, _, hw⟩
      omega

theorem clearAllSlaves_inv (s : Slaves) (hs : storeInv s) : storeInv (clearAllSlaves s) := by
  intro p hp
  unfold clearAllSlaves at hp
  rcases List.mem_map.mp hp with ⟨q, hq, hpq⟩
  rw [← hpq]
  obtain ⟨hlen, _⟩ := hs q hq
  constructor
  · simpa using hlen
  · intro v hv
    rcases List.mem_map.mp hv with ⟨w, _, hw⟩
    omega

theorem loadSlaves_inv (s saved : Slaves) (hs : storeInv s) (hsaved : storeInv saved) :
    storeInv (loadSlaves s saved) := by
  unfold loadSlaves
  have general : ∀ (l : Slaves) (st : Slaves), storeInv st → (∀ p ∈ l, slaveInv p.2) →
      storeInv (l.foldl
        (fun st p => if (st.lookup p.1).isSome then updateSlave st p.1 p.2 else st) st) := by
    intro l
    induction l with
    | nil => intro st h _; simpa using h
    | cons a t ih =>
      intro st h hl
      simp only [List.foldl_cons]
      apply ih
      · split
        · exact updateSlave_inv _ _ _ h (hl a (List.mem_cons_self a t))
        · exact h
      · intro p hp
        exact hl p (List.mem_cons_of_mem a hp)
  exact general saved s hs fun p hp => hsaved p hp

theorem processTCP_inv (s : Slaves) (req : List Nat) (hs : storeInv s)
    (hb : ∀ x ∈ req, x < 256) : storeInv (processTCP s req).2 := by
  have hpdu : ∀ x ∈ req.drop 7, x < 256 := fun x hx => hb x (List.mem_of_mem_drop hx)
  simp only [processTCP]
  repeat' split
  all_goals first
    | exact hs
    | exact updateSlave_inv _ _ _ hs
        (slaveInv_set _ _ _ (storeInv_lookup _ _ _ hs (by assumption))
          (readU16BE_lt _ _ hpdu))
    | exact updateSlave_inv _ _ _ hs
        (writeMulti_inv _ _ _ _ _ (storeInv_lookup _ _ _ hs (by assumption)) hpdu)

theorem processRTU_inv (s : Slaves) (req : List Nat) (hs : storeInv s)
    (hb : ∀ x ∈ req, x < 256) : storeInv (processRTU s req).2 := by
  simp only [processRTU]
  repeat' split
  all_goals first
    | exact hs
    | exact updateSlave_inv _ _ _ hs
        (slaveInv_set _ _ _ (storeInv_lookup _ _ _ hs (by assumption))
          (readU16BE_lt _ _ hb))
    | exact updateSlave_inv _ _ _ hs
        (writeMulti_inv _ _ _ _ _ (storeInv_lookup _ _ _ hs (by assumption)) hb)

set_option maxRecDepth 10000 in
/-- Counterexample to C8 as stated: reloading persisted data replaces a
register array with the file contents unchecked, so a saved array of length
1 holding the value 70000 breaks both the length-500 and the 16-bit
invariant for the configured slave 1. -/
theorem c8_counterexample_load_unchecked :
    ¬ storeInv (loadSlaves (initStore [1] 500) [(1, [70000])]) := by decide

/-- C8 amended: startup initialization, protocol request processing on both
transports, web-form register updates and both clear operations preserve the
registers invariant (length exactly 500, all values below 2^16); reloading
persisted data preserves it only under the extra assumption that the loaded
register arrays themselves satisfy the invariant, because the merge installs
the file contents without validation. -/
theorem c8_register_invariant :
    (∀ ids : List Nat, storeInv (initStore ids 500)) ∧
    (∀ (s : Slaves) (req : List Nat), storeInv s → (∀ x ∈ req, x < 256) →
      storeInv (processTCP s req).2) ∧
    (∀ (s : Slaves) (req : List Nat), storeInv s → (∀ x ∈ req, x < 256) →
      storeInv (processRTU s req).2) ∧
    (∀ (s : Slaves) (id group : Nat) (body : Nat → Option Int), storeInv s →
      storeInv (webUpdate s id group body)) ∧
    (∀ (s : Slaves) (id : Nat), storeInv s → storeInv (clearSlave s id)) ∧
    (∀ s : Slaves, storeInv s → storeInv (clearAllSlaves s)) ∧
    (∀ s saved : Slaves, storeInv s → storeInv saved → storeInv (loadSlaves s saved)) :=
  ⟨initStore_inv, processTCP_inv, processRTU_inv, webUpdate_inv, clearSlave_inv,
   clearAllSlaves_inv, loadSlaves_inv⟩

set_option maxRecDepth 10000 in
/-- Instantiation of the amended C8 theorem on the demo store: a TCP write,
an RTU write, a web-form update, both clears and a well-formed reload all
keep the invariant. -/
theorem c8_register_invariant_witness :
    storeInv (initStore [1, 2] 500) ∧
    storeInv (processTCP demoStore [0, 0, 0, 0, 0, 6, 1, 6, 0, 3, 0, 42]).2 ∧
    storeInv (processRTU demoStore (appendCRC [1, 6, 0, 3, 0, 42])).2 ∧
    storeInv (webUpdate demoStore 1 1 fun i => if i = 0 then some (-1) else none) ∧
    storeInv (clearSlave demoStore 1) ∧
    storeInv (clearAllSlaves demoStore) ∧
    storeInv (loadSlaves demoStore [(1, List.replicate 500 5)]) :=
  ⟨c8_register_invariant.1 [1, 2],
   c8_register_invariant.2.1 demoStore _ (by decide) (by decide),
   c8_register_invariant.2.2.1 demoStore _ (by decide) (by decide),
   c8_register_invariant.2.2.2.1 demoStore 1 1 _ (by decide),
   c8_register_invariant.2.2.2.2.1 demoStore 1 (by decide),
   c8_register_invariant.2.2.2.2.2.1 demoStore (by decide),
   c8_register_invariant.2.2.2.2.2.2 demoStore _ (by decide) (by decide)⟩

set_option maxRecDepth 10000 in
/-- Instantiation of the C10 theorem at a CRC-valid read of 128 registers on
the demo store. -/
theorem c10_rtu_large_read_no_response_witness :
    processRTU demoStore (appendCRC [1, 3, 0, 0, 0, 128]) = (none, demoStore) :=
  c10_rtu_large_read_no_response demoStore (appendCRC [1, 3, 0, 0, 0, 128]) demoRegs
    (by decide) (by decide) (by decide) (by decide) (by decide)

